import Mathlib

/-!
Verification development for the `llm-chat-downloader` repository.

The repository holds five near-duplicate Python scripts that fetch a shared
chat page, parse its HTML with BeautifulSoup, and write a JSON "extraction
result record" per URL plus a run-summary JSON.  The browser, the HTML parser
and the markdown converter are external libraries; following the repository's
own scoping we model their outputs as inputs to the extraction logic:

* the text/classes/markdown each script reads off a DOM element become fields
  of a small per-script element structure;
* navigation and crawling outcomes (goto raising, a response status, a crawl
  failure) become an explicit event datatype consumed by the per-URL step;
* everything the scripts themselves compute (message construction, index and
  turn bookkeeping, role heuristics, dedup checks, selector cascades, summary
  objects, CLI URL selection) is translated statement by statement.

Python dict records are modelled by `Message` / `ChatData` structures whose
optional fields correspond to keys that only some scripts set; the run
summaries are modelled as ordered key/value lists so that the presence or
absence of a JSON key is observable.
-/

/-- A chat message record as built by the scripts (a JSON dict).  Fields that
only some scripts set are `Option`s defaulting to `none` (absent key):
`content_markdown`/`links` (extract_gemini.py, extract_claude.py),
`element_class`/`source` (gemini_chat_extractor.py), `element`/`classes`
(gemini_patchright.py), `selector` (archive/gemini_extractor_simple.py). -/
structure Message where
  index : Nat
  turn : Option Nat := none
  role : String
  content : String
  content_markdown : Option String := none
  links : Option (List (String × String)) := none
  element_class : Option String := none
  element : Option String := none
  classes : Option String := none
  selector : Option String := none
  source : Option String := none
deriving DecidableEq

/-- The per-URL extraction result record (`chat_data` in the scripts).
Optional fields are keys that only some scripts write:
`page_title`/`status_code` (extract_gemini.py, extract_claude.py,
gemini_patchright.py), `raw_markdown` (gemini_chat_extractor.py),
`full_text_preview` (gemini_patchright.py). -/
structure ChatData where
  url : String
  timestamp : String
  page_title : Option String := none
  status_code : Option Nat := none
  message_count : Nat
  messages : List Message
  raw_markdown : Option String := none
  full_text_preview : Option String := none
deriving DecidableEq

/-- What one URL contributes to the results list: either a `chat_data` dict or
the error dict `{"error": msg, "url": url}`. -/
inductive UrlResult where
  | ok (data : ChatData)
  | err (msg : String) (url : String)
deriving DecidableEq

/-- `"error" in r` for a result dict `r`. -/
def UrlResult.hasError : UrlResult → Bool
  | .ok _ => false
  | .err _ _ => true

/-- JSON values appearing in the run-summary objects. -/
inductive JVal where
  | num (n : Nat)
  | str (s : String)
  | arr (rs : List UrlResult)
deriving DecidableEq

/-- Python's substring test `pat in s` on character lists. -/
def charsContain (pat : List Char) : List Char → Bool
  | [] => pat.isEmpty
  | c :: rest => pat.isPrefixOf (c :: rest) || charsContain pat rest

/-- Python's substring test `pat in s` on strings. -/
def strContains (s pat : String) : Bool :=
  charsContain pat.data s.data

/-- `s.lower()`: char-by-char lowercasing (structural, kernel-evaluable). -/
def strLower (s : String) : String := String.mk (s.data.map Char.toLower)

/-- Strip leading and trailing whitespace from a char list. -/
def trimChars (cs : List Char) : List Char :=
  ((cs.dropWhile Char.isWhitespace).reverse.dropWhile Char.isWhitespace).reverse

/-- Python's `s.strip()`. -/
def strTrim (s : String) : String := String.mk (trimChars s.data)

/-- Python's slice `s[:n]` (characters). -/
def strTake (s : String) (n : Nat) : String := String.mk (s.data.take n)

/-- Python's `s.startswith(pre)`. -/
def strStartsWith (s pre : String) : Bool := pre.data.isPrefixOf s.data

/-- Left-to-right non-overlapping split of a char list at `"\n\n"`. -/
def splitNN : List Char → List (List Char)
  | [] => [[]]
  | '\n' :: '\n' :: rest => [] :: splitNN rest
  | c :: rest =>
    match splitNN rest with
    | g :: gs => (c :: g) :: gs
    | [] => [[c]]

/-- Python's `s.split('\n\n')` as used on the crawler's markdown text. -/
def splitOnDoubleNewline (s : String) : List String := (splitNN s.data).map String.mk

/-- Python's `sep.join(parts)`. -/
def joinWith (sep : String) : List String → String
  | [] => ""
  | [x] => x
  | x :: y :: rest => x ++ sep ++ joinWith sep (y :: rest)

/- ------------------------------------------------------------------ -/
/- scripts/extract_gemini.py                                           -/
/- ------------------------------------------------------------------ -/

/-- The `div.markdown` node inside a `message-content` element, as
extract_gemini.py reads it: `md(str(markdown_div), heading_style="ATX")`
(`mdRaw`), `markdown_div.get_text(separator="\n", strip=True)` (`plainText`),
and the `(link_text, href)` pairs of its `a[href]` descendants (`links`). -/
structure GeminiMDiv where
  mdRaw : String
  plainText : String
  links : List (String × String)
deriving DecidableEq

/-- One `share-turn-viewer` element.  `queryText` is
`turn.find("user-query").find("div", class_="query-text").get_text(...)`
when both nodes exist (`none` collapses either `find` returning `None`);
`responseDiv` is the `message-content`'s `div.markdown` when present. -/
structure GeminiTurn where
  queryText : Option String
  responseDiv : Option GeminiMDiv
deriving DecidableEq

/-- The parsed page as extract_gemini.py consumes it: the `<title>` text when
present and the list of `share-turn-viewer` elements. -/
structure GeminiDoc where
  title : Option String
  turns : List GeminiTurn
deriving DecidableEq

/-- Keep only links with nonempty text and href
(`if link_text and href: links.append(...)`). -/
def filterLinks (ls : List (String × String)) : List (String × String) :=
  ls.filter (fun p => p.1 != "" && p.2 != "")

/-- The user message appended for a turn (index is `len(messages)`). -/
def gemini_userMsg (n tIdx : Nat) (q : String) : Message :=
  { index := n, turn := some tIdx, role := "user", content := q }

/-- The assistant message appended for a turn: plain text content,
`content_markdown := response_markdown.strip()`, and a `links` key only when
the filtered link list is nonempty. -/
def gemini_assistantMsg (n tIdx : Nat) (dv : GeminiMDiv) : Message :=
  { index := n, turn := some tIdx, role := "assistant", content := dv.plainText,
    content_markdown := some (strTrim dv.mdRaw),
    links := if filterLinks dv.links = [] then none else some (filterLinks dv.links) }

/-- Body of extract_gemini.py's `for turn_idx, turn in enumerate(turn_viewers)`:
append the user query when its text is nonempty, then the assistant response
when `response_markdown` is nonempty. -/
def gemini_turnStep (tIdx : Nat) (acc : List Message) (t : GeminiTurn) : List Message :=
  let acc1 :=
    match t.queryText with
    | some q => if q = "" then acc else acc ++ [gemini_userMsg acc.length tIdx q]
    | none => acc
  match t.responseDiv with
  | some dv => if dv.mdRaw = "" then acc1 else acc1 ++ [gemini_assistantMsg acc1.length tIdx dv]
  | none => acc1

/-- The enumerate loop over the turn viewers. -/
def gemini_goTurns (tIdx : Nat) (acc : List Message) : List GeminiTurn → List Message
  | [] => acc
  | t :: rest => gemini_goTurns (tIdx + 1) (gemini_turnStep tIdx acc t) rest

/-- The `messages` list extract_gemini.py builds for a page. -/
def gemini_messagesOf (turns : List GeminiTurn) : List Message :=
  gemini_goTurns 0 [] turns

/-- `page_title = title.text if title else "No title"`. -/
def pageTitleOrDefault (t : Option String) : String :=
  match t with
  | some s => s
  | none => "No title"

/-- The `chat_data` dict extract_gemini.py writes for a successfully loaded
page (`ts` stands for `datetime.now().isoformat()`). -/
def gemini_chatData (url ts : String) (status : Nat) (doc : GeminiDoc) : ChatData :=
  { url := url, timestamp := ts,
    page_title := some (pageTitleOrDefault doc.title),
    status_code := some status,
    message_count := (gemini_messagesOf doc.turns).length,
    messages := gemini_messagesOf doc.turns }

/-- Outcome of processing one URL inside the `try:` of extract_gemini.py /
extract_claude.py: `page.goto` raised (`navError`), the page loaded but a
later library call raised (`parseError`), or everything succeeded
(`pageOk` with the response status and the parsed document). -/
inductive NavEvent (D : Type) where
  | navError (msg : String)
  | parseError (status : Nat) (msg : String)
  | pageOk (status : Nat) (doc : D)

/-- extract_gemini.py's `extract_gemini_chat`: the `except Exception as e`
turns any raised exception into `{"error": str(e), "url": url}`; otherwise
the `chat_data` dict is built and written. -/
def gemini_extract_chat (url ts : String) : NavEvent GeminiDoc → UrlResult
  | .navError m => .err m url
  | .parseError _ m => .err m url
  | .pageOk st doc => .ok (gemini_chatData url ts st doc)

/-- extract_gemini.py's `for url in urls:` loop collecting `results`. -/
def gemini_run (ts : String) : List (String × NavEvent GeminiDoc) → List UrlResult
  | [] => []
  | (u, e) :: rest => gemini_extract_chat u ts e :: gemini_run ts rest

/-- extract_gemini.py's run-summary JSON object, as an ordered key/value
list: `successful` counts results without an `"error"` key, `failed` those
with one. -/
def gemini_summaryJson (ts : String) (urls : List String) (results : List UrlResult) :
    List (String × JVal) :=
  [("timestamp", .str ts),
   ("total_urls", .num urls.length),
   ("successful", .num (results.countP (fun r => !r.hasError))),
   ("failed", .num (results.countP (fun r => r.hasError))),
   ("results", .arr results)]

/-- extract_gemini.py's hardcoded default URL list. -/
def gemini_defaultUrls : List String :=
  ["https://g.co/gemini/share/c9cba1e9858a",
   "https://g.co/gemini/share/4079b2f26c6f"]

/-- The URLs extract_gemini.py processes given the CLI arguments after the
script name: `sys.argv[1:]` when nonempty, else the defaults. -/
def gemini_processedUrls (args : List String) : List String :=
  if args.length ≥ 1 then args else gemini_defaultUrls

/- ------------------------------------------------------------------ -/
/- scripts/extract_claude.py                                           -/
/- ------------------------------------------------------------------ -/

/-- A candidate `div` examined by extract_claude.py's strategy-3 loop
(`for div in nested_divs`), as the script reads it off BeautifulSoup:
`text` is `div.get_text(separator='\n', strip=True)`; `hasChildTexts` and
`childTextsLen` model the container check (`child_texts` nonempty and
`len(' '.join(child_texts))`); `mdText` is `md(str(div), heading_style='ATX')`;
`links` are the raw `(link_text, href)` pairs of its `a[href]` descendants.
(The script's strategy 1 and strategy 2 also scan the soup but only print
counts / fill the unused `message_blocks` list, so they do not affect the
output and are not modelled; likewise the unused locals `is_code_heavy` and
`is_long`.) -/
structure CDiv where
  text : String
  hasChildTexts : Bool
  childTextsLen : Nat
  mdText : String
  links : List (String × String)
deriving DecidableEq

/-- An element visited by extract_claude.py's fallback loop
(`soup.find_all(['p', 'div', 'span'])`). -/
structure FElem where
  text : String
  mdText : String
deriving DecidableEq

/-- The parsed page as extract_claude.py consumes it.  `nestedDivs` is the
flattened sequence of `div`s visited by the nested strategy-3 loops
(`for container in potential_containers: for div in nested_divs:`), in
traversal order; it is empty when `main_content` is `None`.  `fallbackElems`
are the elements the fallback loop would visit. -/
structure ClaudeDoc where
  title : Option String
  nestedDivs : List CDiv
  fallbackElems : List FElem
deriving DecidableEq

/-- `role = 'user' if len(messages) == 0 else ('assistant' if
messages[-1]['role'] == 'user' else 'user')`. -/
def claude_nextRole (msgs : List Message) : String :=
  match msgs.getLast? with
  | none => "user"
  | some m => if m.role = "user" then "assistant" else "user"

/-- The message dict strategy 3 builds for an accepted div. -/
def claude_mkMsg (msgs : List Message) (tIdx : Nat) (d : CDiv) : Message :=
  let role := claude_nextRole msgs
  { index := msgs.length, turn := some tIdx, role := role, content := d.text,
    content_markdown := if role = "assistant" then some (strTrim d.mdText) else none,
    links :=
      if role = "assistant" then
        if filterLinks d.links = [] then none else some (filterLinks d.links)
      else none }

/-- extract_claude.py's strategy-3 loop.  A div is skipped when its text is
empty or shorter than 10 characters, or when it is "mostly a container":
`child_texts and len(' '.join(child_texts)) > len(text) * 0.8` (the float
comparison `c > 0.8 * t` is embedded as the exact rational test `5c > 4t`).
Otherwise a message is built and appended unless an earlier message already
has the same content; `turn_idx` advances after an appended assistant
message. -/
def claude_goDivs (msgs : List Message) (tIdx : Nat) : List CDiv → List Message
  | [] => msgs
  | d :: rest =>
    if d.text = "" ∨ d.text.length < 10 then
      claude_goDivs msgs tIdx rest
    else if d.hasChildTexts ∧ 5 * d.childTextsLen > 4 * d.text.length then
      claude_goDivs msgs tIdx rest
    else if msgs.any (fun m => m.content == d.text) then
      claude_goDivs msgs tIdx rest
    else
      let msg := claude_mkMsg msgs tIdx d
      claude_goDivs (msgs ++ [msg]) (if msg.role = "assistant" then tIdx + 1 else tIdx) rest

/-- The messages found by extract_claude.py's primary strategies. -/
def claude_primaryMessages (doc : ClaudeDoc) : List Message :=
  claude_goDivs [] 0 doc.nestedDivs

/-- extract_claude.py's fallback loop over all `p`/`div`/`span` elements,
entered only when the primary strategies found nothing: skip texts that are
empty or shorter than 20 characters and duplicates of an earlier content;
otherwise append with `index = len(messages)`, alternate the role starting
from `'user'`, advance `turn_idx` when flipping back to `'user'`, and stop
once `len(messages) >= 50`. -/
def claude_fallbackMsg (msgs : List Message) (tIdx : Nat) (role : String) (e : FElem) :
    Message :=
  { index := msgs.length, turn := some tIdx, role := role, content := e.text,
    content_markdown := if role = "assistant" then some (strTrim e.mdText) else none }

def claude_fallbackGo (msgs : List Message) (tIdx : Nat) (role : String) :
    List FElem → List Message
  | [] => msgs
  | e :: rest =>
    if e.text = "" ∨ e.text.length < 20 then
      claude_fallbackGo msgs tIdx role rest
    else if msgs.any (fun m => m.content == e.text) then
      claude_fallbackGo msgs tIdx role rest
    else if 50 ≤ (msgs ++ [claude_fallbackMsg msgs tIdx role e]).length then
      msgs ++ [claude_fallbackMsg msgs tIdx role e]
    else if role = "user" then
      claude_fallbackGo (msgs ++ [claude_fallbackMsg msgs tIdx role e]) tIdx "assistant" rest
    else claude_fallbackGo (msgs ++ [claude_fallbackMsg msgs tIdx role e]) (tIdx + 1) "user" rest

/-- The final `messages` list of extract_claude.py: the fallback runs only
`if len(messages) == 0` (and then `turn_idx` is still 0, since it only
advances when a message is appended). -/
def claude_messagesOf (doc : ClaudeDoc) : List Message :=
  let primary := claude_primaryMessages doc
  if primary = [] then claude_fallbackGo [] 0 "user" doc.fallbackElems else primary

/-- The `chat_data` dict extract_claude.py writes for a successfully loaded
page. -/
def claude_chatData (url ts : String) (status : Nat) (doc : ClaudeDoc) : ChatData :=
  { url := url, timestamp := ts,
    page_title := some (pageTitleOrDefault doc.title),
    status_code := some status,
    message_count := (claude_messagesOf doc).length,
    messages := claude_messagesOf doc }

/-- extract_claude.py's `extract_claude_chat`: any exception raised inside the
`try:` (navigation or parsing) is converted by `except Exception as e` into
`{"error": str(e), "url": url}`; otherwise the `chat_data` dict is built and
written. -/
def claude_extract_chat (url ts : String) : NavEvent ClaudeDoc → UrlResult
  | .navError m => .err m url
  | .parseError _ m => .err m url
  | .pageOk st doc => .ok (claude_chatData url ts st doc)

/-- extract_claude.py's `for url in urls:` loop collecting `results`. -/
def claude_run (ts : String) : List (String × NavEvent ClaudeDoc) → List UrlResult
  | [] => []
  | (u, e) :: rest => claude_extract_chat u ts e :: claude_run ts rest

/-- extract_claude.py's run-summary JSON object (same shape as
extract_gemini.py's). -/
def claude_summaryJson (ts : String) (urls : List String) (results : List UrlResult) :
    List (String × JVal) :=
  [("timestamp", .str ts),
   ("total_urls", .num urls.length),
   ("successful", .num (results.countP (fun r => !r.hasError))),
   ("failed", .num (results.countP (fun r => r.hasError))),
   ("results", .arr results)]

/-- extract_claude.py's hardcoded default URL list. -/
def claude_defaultUrls : List String :=
  ["https://claude.ai/share/62bc6fc6-d53a-4f65-8ad3-f42bb8941952",
   "https://claude.ai/share/0cc98a15-99f4-4d9a-c7f9-ad8090575d67"]

/-- The URLs extract_claude.py's `main` processes given the CLI arguments
after the script name: with exactly two arguments it enters API mode
(`len(sys.argv) == 3`) and extracts only the first argument (the second names
the output file); otherwise the defaults are used unless arguments were
given. -/
def claude_processedUrls (args : List String) : List String :=
  if args.length = 2 then args.take 1
  else if args.length ≥ 1 then args
  else claude_defaultUrls

/- ------------------------------------------------------------------ -/
/- scripts/gemini_chat_extractor.py                                    -/
/- ------------------------------------------------------------------ -/

/-- An element as gemini_chat_extractor.py reads it: `get_text(strip=True)`
and `element.get('class', [])`. -/
structure GCEElem where
  text : String
  classes : List String
deriving DecidableEq

/-- The crawled page as gemini_chat_extractor.py consumes it.  `select` is
`soup.select(selector)`; `textBlocks` are the `p`/`div`/`span` descendants of
`soup.find('main') or soup.find('body')` (empty when neither exists);
`markdown` is `result.markdown` (`none` for `None`). -/
structure GCEDoc where
  select : String → List GCEElem
  textBlocks : List GCEElem
  markdown : Option String

/-- The ordered selector list of gemini_chat_extractor.py. -/
def gce_selectors : List String :=
  [".conversation-turn",
   "[class*=\"message\"]",
   "[class*=\"chat\"]",
   "[data-message-author]",
   ".model-response-text",
   ".user-query"]

/-- The selector loop: `message_elements` becomes the first selector's
matches that are nonempty (`if found: ... break`), else stays `[]`. -/
def gce_cascade (q : String → List GCEElem) : List String → List GCEElem
  | [] => []
  | s :: rest => if q s = [] then gce_cascade q rest else q s

/-- `message_elements` after the cascade and the general fallback
(`[block for block in text_blocks if block.get_text(strip=True)]`). -/
def gce_messageElements (doc : GCEDoc) : List GCEElem :=
  let els := gce_cascade doc.select gce_selectors
  if els = [] then doc.textBlocks.filter (fun e => e.text != "") else els

/-- The role heuristic: default `'assistant'`, `'user'` when a user keyword
occurs in the lowercased joined class string, `'assistant'` again on a model
keyword. -/
def gce_role (classes : List String) : String :=
  let cs := strLower (joinWith " " classes)
  if ["user", "prompt", "query"].any (fun k => strContains cs k) then "user"
  else if ["model", "response", "assistant"].any (fun k => strContains cs k) then "assistant"
  else "assistant"

/-- `for idx, element in enumerate(message_elements): ... if text:` — note
the stored `index` is the enumerate counter `idx`, which advances even for
elements whose stripped text is empty and therefore appended nothing. -/
def gce_processElems (idx : Nat) : List GCEElem → List Message
  | [] => []
  | e :: rest =>
    if e.text = "" then gce_processElems (idx + 1) rest
    else
      { index := idx, role := gce_role e.classes, content := e.text,
        element_class := some (joinWith " " e.classes) }
        :: gce_processElems (idx + 1) rest

/-- The markdown splits visited by the low-message-count supplement:
`markdown_text.split('\n\n')` when `result.markdown` is truthy, else none. -/
def gce_mdBlocks (mdOpt : Option String) : List String :=
  match mdOpt with
  | none => []
  | some s => if s = "" then [] else splitOnDoubleNewline s

/-- The supplement loop body: append each nonblank stripped block with
`index = len(messages)` and role `'unknown'`. -/
def gce_mdGo (n : Nat) : List String → List Message
  | [] => []
  | b :: rest =>
    if strTrim b = "" then gce_mdGo n rest
    else
      { index := n, role := "unknown", content := strTrim b, source := some "markdown" }
        :: gce_mdGo (n + 1) rest

/-- The final `messages` list of gemini_chat_extractor.py: the element
messages, extended by the markdown supplement when `len(messages) < 5`. -/
def gce_messagesOf (doc : GCEDoc) : List Message :=
  let msgs := gce_processElems 0 (gce_messageElements doc)
  if msgs.length < 5 then msgs ++ gce_mdGo msgs.length (gce_mdBlocks doc.markdown) else msgs

/-- `result.markdown[:5000] if result.markdown else None`. -/
def gce_rawMarkdown (mdOpt : Option String) : Option String :=
  match mdOpt with
  | none => none
  | some s => if s = "" then none else some (strTake s 5000)

/-- The `chat_data` dict gemini_chat_extractor.py writes (no `status_code`
and no `page_title` key in this script). -/
def gce_chatData (url ts : String) (doc : GCEDoc) : ChatData :=
  { url := url, timestamp := ts,
    message_count := (gce_messagesOf doc).length,
    messages := gce_messagesOf doc,
    raw_markdown := gce_rawMarkdown doc.markdown }

/-- Outcome of `crawler.arun` for gemini_chat_extractor.py: `result.success`
false with an error message, or a crawled document. -/
inductive CrawlEvent where
  | crawlFailed (msg : String)
  | crawlOk (doc : GCEDoc)

/-- gemini_chat_extractor.py's `extract_gemini_chat`: on a failed crawl it
returns `{"error": result.error_message, "url": url}` and otherwise writes
and returns the `chat_data` dict. -/
def gce_extract_chat (url ts : String) : CrawlEvent → UrlResult
  | .crawlFailed m => .err m url
  | .crawlOk doc => .ok (gce_chatData url ts doc)

/-- gemini_chat_extractor.py's run-summary JSON object: only `timestamp`,
`total_urls` and `results` — no success/failure counters. -/
def gce_summaryJson (ts : String) (urls : List String) (results : List UrlResult) :
    List (String × JVal) :=
  [("timestamp", .str ts),
   ("total_urls", .num urls.length),
   ("results", .arr results)]

/-- gemini_chat_extractor.py's hardcoded default URL list. -/
def gce_defaultUrls : List String :=
  ["https://g.co/gemini/share/c9cba1e9858a",
   "https://g.co/gemini/share/4079b2f26c6f"]

/-- The URLs gemini_chat_extractor.py processes. -/
def gce_processedUrls (args : List String) : List String :=
  if args.length ≥ 1 then args else gce_defaultUrls

/- ------------------------------------------------------------------ -/
/- scripts/gemini_patchright.py                                        -/
/- ------------------------------------------------------------------ -/

/-- An element visited by gemini_patchright.py's
`soup.find_all(['div', 'p', 'article', 'section'])` loop: stripped text,
tag name and class list. -/
structure PElem where
  text : String
  name : String
  classes : List String
deriving DecidableEq

/-- The parsed page as gemini_patchright.py consumes it: the `<title>` text
when present, and — when `soup.find('body')` succeeds — the body's full text
(`all_text`) together with the candidate elements. -/
structure PDoc where
  title : Option String
  body : Option (String × List PElem)

/-- The class keywords gemini_patchright.py looks for. -/
def patchright_keywords : List String :=
  ["message", "chat", "conversation", "turn", "response", "query"]

/-- The element loop: append a role-`'unknown'` message when the text is
nonempty, longer than 30 characters, and a keyword occurs in the lowercased
joined class string; `index = len(messages)`. -/
def patchright_goElems (msgs : List Message) : List PElem → List Message
  | [] => msgs
  | e :: rest =>
    if e.text ≠ "" ∧ e.text.length > 30 ∧
        patchright_keywords.any
          (fun k => strContains (strLower (joinWith " " e.classes)) k) then
      patchright_goElems
        (msgs ++ [{ index := msgs.length, role := "unknown", content := e.text,
                    element := some e.name,
                    classes := some (joinWith " " e.classes) }]) rest
    else patchright_goElems msgs rest

/-- The `messages` list of gemini_patchright.py (empty when the soup has no
`body`). -/
def patchright_messagesOf (doc : PDoc) : List Message :=
  match doc.body with
  | none => []
  | some (_, els) => patchright_goElems [] els

/-- The `chat_data` dict gemini_patchright.py writes:
`status_code` is `response.status if response else None`, `page_title` is
`title.text if title else None`, `full_text_preview` is `all_text[:2000]`
when `all_text` was set. -/
def patchright_chatData (url ts : String) (status : Option Nat) (doc : PDoc) : ChatData :=
  { url := url, timestamp := ts,
    page_title := doc.title,
    status_code := status,
    message_count := (patchright_messagesOf doc).length,
    messages := patchright_messagesOf doc,
    full_text_preview := doc.body.map (fun b => strTake b.1 2000) }

/-- Outcome of one URL for gemini_patchright.py: some call inside the `try:`
raised (there is no `except` in `extract_gemini_chat`, so the exception
propagates), or the page loaded with an optional response status. -/
inductive PEvent where
  | raised (msg : String)
  | pageOk (status : Option Nat) (doc : PDoc)

/-- gemini_patchright.py's `extract_gemini_chat` as a fallible function:
`try/finally` only, so an exception escapes to the caller. -/
def patchright_extract_chat (url ts : String) : PEvent → Except String ChatData
  | .raised m => .error m
  | .pageOk st doc => .ok (patchright_chatData url ts st doc)

/-- The per-URL body of gemini_patchright.py's `main`: the `except Exception
as e` there converts the escaped exception into `{"error": str(e), "url":
url}`. -/
def patchright_mainStep (url ts : String) (e : PEvent) : UrlResult :=
  match patchright_extract_chat url ts e with
  | .error m => .err m url
  | .ok c => .ok c

/-- gemini_patchright.py's `for url in urls:` loop collecting `results`. -/
def patchright_run (ts : String) : List (String × PEvent) → List UrlResult
  | [] => []
  | (u, e) :: rest => patchright_mainStep u ts e :: patchright_run ts rest

/-- gemini_patchright.py's run-summary JSON object: only `timestamp`,
`total_urls` and `results`. -/
def patchright_summaryJson (ts : String) (urls : List String)
    (results : List UrlResult) : List (String × JVal) :=
  [("timestamp", .str ts),
   ("total_urls", .num urls.length),
   ("results", .arr results)]

/-- gemini_patchright.py's hardcoded default URL list. -/
def patchright_defaultUrls : List String :=
  ["https://g.co/gemini/share/c9cba1e9858a",
   "https://g.co/gemini/share/4079b2f26c6f"]

/-- The URLs gemini_patchright.py processes. -/
def patchright_processedUrls (args : List String) : List String :=
  if args.length ≥ 1 then args else patchright_defaultUrls

/- ------------------------------------------------------------------ -/
/- scripts/archive/gemini_extractor_simple.py                          -/
/- ------------------------------------------------------------------ -/

/-- An element as the archived simple extractor reads it
(`get_text(strip=True)`). -/
structure SElem where
  text : String
deriving DecidableEq

/-- The ordered selector list of archive/gemini_extractor_simple.py. -/
def simple_selectors : List String :=
  ["message-content",
   "model-response",
   "user-query",
   "[data-test-id*=\"message\"]",
   "[class*=\"conversation\"]",
   "[class*=\"message\"]",
   "[class*=\"chat\"]",
   "div[role=\"article\"]"]

/-- The query the archived script actually issues for a selector entry:
`soup.select(f'[class*="{selector}"]')` unless the entry starts with `[`,
in which case it is passed to `soup.select` verbatim. -/
def simple_query (q : String → List SElem) (s : String) : List SElem :=
  if strStartsWith s "[" then q s else q ("[class*=\"" ++ s ++ "\"]")

/-- The inner loop over one selector's matches: append elements with text
longer than 10 characters, tagging them with the selector entry;
`index = len(messages)` (the list is empty when a selector's loop starts). -/
def simple_buildGo (tag : String) (n : Nat) : List SElem → List Message
  | [] => []
  | e :: rest =>
    if e.text ≠ "" ∧ e.text.length > 10 then
      { index := n, role := "unknown", content := e.text, selector := some tag }
        :: simple_buildGo tag (n + 1) rest
    else simple_buildGo tag n rest

/-- The messages one selector entry contributes. -/
def simple_buildFrom (q : String → List SElem) (s : String) : List Message :=
  simple_buildGo s 0 (simple_query q s)

/-- The archived script's selector loop: a selector with no matches is
skipped, a selector whose matches all fail the length filter leaves
`messages` empty and the loop moves on (`if messages: break` only fires once
at least one message was appended). -/
def simple_cascade (q : String → List SElem) : List String → List Message
  | [] => []
  | s :: rest =>
    if simple_query q s = [] then simple_cascade q rest
    else if simple_buildFrom q s = [] then simple_cascade q rest
    else simple_buildFrom q s

/-- The archived script's text-block fallback, entered when the cascade
produced nothing: append nonduplicate texts longer than 20 characters with
`index = len(messages)` and selector tag `'text_extraction'`. -/
def simple_fallbackGo (msgs : List Message) : List SElem → List Message
  | [] => msgs
  | e :: rest =>
    if e.text ≠ "" ∧ e.text.length > 20 ∧
        (msgs.any (fun m => m.content == e.text)) = false then
      simple_fallbackGo
        (msgs ++ [{ index := msgs.length, role := "unknown", content := e.text,
                    selector := some "text_extraction" }]) rest
    else simple_fallbackGo msgs rest

/- ------------------------------------------------------------------ -/
/- Concrete example inputs used by witnesses and counterexamples       -/
/- ------------------------------------------------------------------ -/

/-- A page with no turn viewers, for extract_gemini.py. -/
def exEmptyGeminiDoc : GeminiDoc := { title := none, turns := [] }

/-- A page on which extract_claude.py's strategies find nothing. -/
def exEmptyClaudeDoc : ClaudeDoc := { title := none, nestedDivs := [], fallbackElems := [] }

/-- A page with no body, for gemini_patchright.py. -/
def exEmptyPDoc : PDoc := { title := none, body := none }

/-- A `soup.select` giving `[class*="message"]` two matches, the first with
empty stripped text (e.g. an icon div carrying a `message-*` class). -/
def exGceSelect : String → List GCEElem :=
  fun s =>
    if s = "[class*=\"message\"]" then
      [{ text := "", classes := [] }, { text := "hello there friend", classes := [] }]
    else []

/-- A crawled page for gemini_chat_extractor.py on which the stored message
indexes diverge from array positions. -/
def exGceDoc : GCEDoc :=
  { select := exGceSelect, textBlocks := [], markdown := some "aaa\n\nbbb" }

/-- A `soup.select` for the cascade witness: the first selector matches. -/
def exGceQ : String → List GCEElem :=
  fun s => if s = ".conversation-turn" then [{ text := "a turn", classes := [] }] else []

/-- A page with one turn holding one user query, for the role witness. -/
def exRoleTurns : List GeminiTurn := [{ queryText := some "hello", responseDiv := none }]

/-- The single message extract_gemini.py produces from `exRoleTurns`. -/
def exRoleMsg : Message := { index := 0, turn := some 0, role := "user", content := "hello" }

/-- Two turns with identical user queries, for the dedup counterexample. -/
def exDupTurns : List GeminiTurn :=
  [{ queryText := some "hi", responseDiv := none },
   { queryText := some "hi", responseDiv := none }]

/-- A `soup.select` for the archived cascade: the first selector entry
(`message-content`, issued as `[class*="message-content"]`) matches one
element whose text is 10 characters or shorter, and the second entry matches
an element with long text. -/
def exSimpleQ : String → List SElem :=
  fun s =>
    if s = "[class*=\"message-content\"]" then [{ text := "short" }]
    else if s = "[class*=\"model-response\"]" then [{ text := "this is a long message text" }]
    else []

/- ------------------------------------------------------------------ -/
/- Helper lemmas                                                       -/
/- ------------------------------------------------------------------ -/

theorem aligned_append (msgs : List Message) (m : Message)
    (h : msgs.map Message.index = List.range msgs.length)
    (hm : m.index = msgs.length) :
    (msgs ++ [m]).map Message.index = List.range (msgs ++ [m]).length := by
  simp [List.map_append, h, hm, List.range_succ]

theorem gemini_turnStep_aligned (tIdx : Nat) (acc : List Message) (t : GeminiTurn)
    (h : acc.map Message.index = List.range acc.length) :
    (gemini_turnStep tIdx acc t).map Message.index
      = List.range (gemini_turnStep tIdx acc t).length := by
  unfold gemini_turnStep
  cases hq : t.queryText with
  | none =>
    cases hr : t.responseDiv with
    | none => simpa using h
    | some dv =>
      by_cases hdv : dv.mdRaw = ""
      · simpa [hdv] using h
      · simpa [hdv] using aligned_append acc (gemini_assistantMsg acc.length tIdx dv) h rfl
  | some q =>
    by_cases hq0 : q = ""
    · cases hr : t.responseDiv with
      | none => simpa [hq0] using h
      | some dv =>
        by_cases hdv : dv.mdRaw = ""
        · simpa [hq0, hdv] using h
        · simpa [hq0, hdv] using aligned_append acc (gemini_assistantMsg acc.length tIdx dv) h rfl
    · have h1 := aligned_append acc (gemini_userMsg acc.length tIdx q) h rfl
      cases hr : t.responseDiv with
      | none => simpa [hq0] using h1
      | some dv =>
        by_cases hdv : dv.mdRaw = ""
        · simpa [hq0, hdv] using h1
        · simpa [hq0, hdv] using
            aligned_append (acc ++ [gemini_userMsg acc.length tIdx q])
              (gemini_assistantMsg (acc ++ [gemini_userMsg acc.length tIdx q]).length tIdx dv)
              h1 rfl

theorem gemini_goTurns_aligned (turns : List GeminiTurn) :
    ∀ tIdx acc, acc.map Message.index = List.range acc.length →
      (gemini_goTurns tIdx acc turns).map Message.index
        = List.range (gemini_goTurns tIdx acc turns).length := by
  induction turns with
  | nil => intro tIdx acc h; simpa [gemini_goTurns] using h
  | cons t rest ih =>
    intro tIdx acc h
    simpa [gemini_goTurns] using ih (tIdx + 1) (gemini_turnStep tIdx acc t)
      (gemini_turnStep_aligned tIdx acc t h)

theorem claude_mkMsg_index (msgs : List Message) (tIdx : Nat) (d : CDiv) :
    (claude_mkMsg msgs tIdx d).index = msgs.length := rfl

theorem claude_mkMsg_content (msgs : List Message) (tIdx : Nat) (d : CDiv) :
    (claude_mkMsg msgs tIdx d).content = d.text := rfl

theorem claude_goDivs_aligned (ds : List CDiv) :
    ∀ msgs tIdx, msgs.map Message.index = List.range msgs.length →
      (claude_goDivs msgs tIdx ds).map Message.index
        = List.range (claude_goDivs msgs tIdx ds).length := by
  induction ds with
  | nil => intro msgs tIdx h; simpa [claude_goDivs] using h
  | cons d rest ih =>
    intro msgs tIdx h
    rw [claude_goDivs]
    split
    · exact ih msgs tIdx h
    · split
      · exact ih msgs tIdx h
      · split
        · exact ih msgs tIdx h
        · exact ih _ _ (aligned_append msgs (claude_mkMsg msgs tIdx d) h (claude_mkMsg_index msgs tIdx d))

theorem claude_fallbackGo_aligned (es : List FElem) :
    ∀ msgs tIdx role, msgs.map Message.index = List.range msgs.length →
      (claude_fallbackGo msgs tIdx role es).map Message.index
        = List.range (claude_fallbackGo msgs tIdx role es).length := by
  induction es with
  | nil => intro msgs tIdx role h; simpa [claude_fallbackGo] using h
  | cons e rest ih =>
    intro msgs tIdx role h
    rw [claude_fallbackGo]
    split
    · exact ih msgs tIdx role h
    · split
      · exact ih msgs tIdx role h
      · have h2 := aligned_append msgs (claude_fallbackMsg msgs tIdx role e) h rfl
        by_cases h50 : 50 ≤ (msgs ++ [claude_fallbackMsg msgs tIdx role e]).length
        · rw [if_pos h50]; exact h2
        · rw [if_neg h50]
          by_cases hrole : role = "user"
          · rw [if_pos hrole]; exact ih _ _ _ h2
          · rw [if_neg hrole]; exact ih _ _ _ h2

theorem patchright_goElems_aligned (es : List PElem) :
    ∀ msgs, msgs.map Message.index = List.range msgs.length →
      (patchright_goElems msgs es).map Message.index
        = List.range (patchright_goElems msgs es).length := by
  induction es with
  | nil => intro msgs h; simpa [patchright_goElems] using h
  | cons e rest ih =>
    intro msgs h
    rw [patchright_goElems]
    split
    · exact ih _ (aligned_append msgs
        { index := msgs.length, role := "unknown", content := e.text,
          element := some e.name, classes := some (joinWith " " e.classes) } h rfl)
    · exact ih msgs h

theorem gce_processElems_index_ge (es : List GCEElem) :
    ∀ idx, ∀ m ∈ gce_processElems idx es, idx ≤ m.index := by
  induction es with
  | nil => intro idx m hm; simp [gce_processElems] at hm
  | cons e rest ih =>
    intro idx m hm
    rw [gce_processElems] at hm
    split at hm
    · exact Nat.le_of_succ_le (ih (idx + 1) m hm)
    · rcases List.mem_cons.mp hm with h | h
      · simp [h]
      · exact Nat.le_of_succ_le (ih (idx + 1) m h)

theorem gce_processElems_pairwise (es : List GCEElem) :
    ∀ idx, ((gce_processElems idx es).map Message.index).Pairwise (· < ·) := by
  induction es with
  | nil => intro idx; simp [gce_processElems]
  | cons e rest ih =>
    intro idx
    rw [gce_processElems]
    split
    · exact ih (idx + 1)
    · rw [List.map_cons, List.pairwise_cons]
      refine ⟨?_, ih (idx + 1)⟩
      intro b hb
      rcases List.mem_map.mp hb with ⟨m, hm, hbm⟩
      have := gce_processElems_index_ge rest (idx + 1) m hm
      simp only [← hbm]
      omega

theorem contents_nodup_append (msgs : List Message) (m : Message)
    (h : (msgs.map Message.content).Nodup)
    (hm : (msgs.any fun x => x.content == m.content) = false) :
    ((msgs ++ [m]).map Message.content).Nodup := by
  rw [List.map_append, List.nodup_append_comm]
  simp only [List.map_cons, List.map_nil, List.singleton_append, List.nodup_cons]
  refine ⟨?_, h⟩
  intro hmem
  rcases List.mem_map.mp hmem with ⟨x, hx, hxc⟩
  have : (msgs.any fun x => x.content == m.content) = true :=
    List.any_eq_true.mpr ⟨x, hx, by simp [hxc]⟩
  simp [this] at hm

theorem claude_goDivs_nodup (ds : List CDiv) :
    ∀ msgs tIdx, (msgs.map Message.content).Nodup →
      ((claude_goDivs msgs tIdx ds).map Message.content).Nodup := by
  induction ds with
  | nil => intro msgs tIdx h; simpa [claude_goDivs] using h
  | cons d rest ih =>
    intro msgs tIdx h
    rw [claude_goDivs]
    split
    · exact ih msgs tIdx h
    · split
      · exact ih msgs tIdx h
      · split
        · exact ih msgs tIdx h
        · rename_i hany
          have hany2 : (msgs.any fun m => m.content == d.text) = false := by
            simp only [Bool.not_eq_true] at hany; exact hany
          exact ih _ _ (contents_nodup_append msgs (claude_mkMsg msgs tIdx d) h hany2)

theorem claude_fallbackGo_nodup (es : List FElem) :
    ∀ msgs tIdx role, (msgs.map Message.content).Nodup →
      ((claude_fallbackGo msgs tIdx role es).map Message.content).Nodup := by
  induction es with
  | nil => intro msgs tIdx role h; simpa [claude_fallbackGo] using h
  | cons e rest ih =>
    intro msgs tIdx role h
    rw [claude_fallbackGo]
    split
    · exact ih msgs tIdx role h
    · split
      · exact ih msgs tIdx role h
      · rename_i hany
        have hany2 : (msgs.any fun m => m.content == e.text) = false := by
          simp only [Bool.not_eq_true] at hany; exact hany
        have h2 := contents_nodup_append msgs (claude_fallbackMsg msgs tIdx role e) h hany2
        split
        · exact h2
        · split
          · exact ih _ _ _ h2
          · exact ih _ _ _ h2

theorem simple_fallbackGo_nodup (es : List SElem) :
    ∀ msgs, (msgs.map Message.content).Nodup →
      ((simple_fallbackGo msgs es).map Message.content).Nodup := by
  induction es with
  | nil => intro msgs h; simpa [simple_fallbackGo] using h
  | cons e rest ih =>
    intro msgs h
    rw [simple_fallbackGo]
    split
    · rename_i hc
      exact ih _ (contents_nodup_append msgs
        { index := msgs.length, role := "unknown", content := e.text,
          selector := some "text_extraction" } h hc.2.2)
    · exact ih msgs h

/-- The three role strings the spec's data model names. -/
def roleOk (m : Message) : Prop :=
  m.role = "user" ∨ m.role = "assistant" ∨ m.role = "unknown"

theorem claude_nextRole_cases (msgs : List Message) :
    claude_nextRole msgs = "user" ∨ claude_nextRole msgs = "assistant" := by
  unfold claude_nextRole
  cases msgs.getLast? with
  | none => left; rfl
  | some m => by_cases h : m.role = "user" <;> simp [h]

theorem gce_role_cases (cs : List String) :
    gce_role cs = "user" ∨ gce_role cs = "assistant" := by
  by_cases h1 : (["user", "prompt", "query"].any
      fun k => strContains (strLower (joinWith " " cs)) k) = true
  · left; simp [gce_role, h1]
  · by_cases h2 : (["model", "response", "assistant"].any
        fun k => strContains (strLower (joinWith " " cs)) k) = true
    · right; simp [gce_role, h1, h2]
    · right; simp [gce_role, h1, h2]

theorem roleOk_append (acc : List Message) (m2 : Message)
    (h : ∀ m ∈ acc, roleOk m) (h2 : roleOk m2) : ∀ m ∈ acc ++ [m2], roleOk m := by
  intro m hm
  rcases List.mem_append.mp hm with hx | hx
  · exact h m hx
  · rw [List.mem_singleton.mp hx]; exact h2

theorem gemini_turnStep_roleOk (tIdx : Nat) (acc : List Message) (t : GeminiTurn)
    (h : ∀ m ∈ acc, roleOk m) : ∀ m ∈ gemini_turnStep tIdx acc t, roleOk m := by
  unfold gemini_turnStep
  cases t.queryText with
  | none =>
    cases t.responseDiv with
    | none => simpa using h
    | some dv =>
      by_cases hdv : dv.mdRaw = ""
      · simpa [hdv] using h
      · simpa [hdv] using roleOk_append acc _ h (Or.inr (Or.inl rfl))
  | some q =>
    by_cases hq0 : q = ""
    · cases t.responseDiv with
      | none => simpa [hq0] using h
      | some dv =>
        by_cases hdv : dv.mdRaw = ""
        · simpa [hq0, hdv] using h
        · simpa [hq0, hdv] using roleOk_append acc _ h (Or.inr (Or.inl rfl))
    · have h1 := roleOk_append acc (gemini_userMsg acc.length tIdx q) h (Or.inl rfl)
      cases t.responseDiv with
      | none => simpa [hq0] using h1
      | some dv =>
        by_cases hdv : dv.mdRaw = ""
        · simpa [hq0, hdv] using h1
        · simpa [hq0, hdv] using
            roleOk_append (acc ++ [gemini_userMsg acc.length tIdx q])
              (gemini_assistantMsg (acc ++ [gemini_userMsg acc.length tIdx q]).length tIdx dv)
              h1 (Or.inr (Or.inl rfl))

theorem gemini_goTurns_roleOk (turns : List GeminiTurn) :
    ∀ tIdx acc, (∀ m ∈ acc, roleOk m) →
      ∀ m ∈ gemini_goTurns tIdx acc turns, roleOk m := by
  induction turns with
  | nil => intro tIdx acc h; simpa [gemini_goTurns] using h
  | cons t rest ih =>
    intro tIdx acc h
    rw [gemini_goTurns]
    exact ih (tIdx + 1) _ (gemini_turnStep_roleOk tIdx acc t h)

theorem claude_goDivs_roleOk (ds : List CDiv) :
    ∀ msgs tIdx, (∀ m ∈ msgs, roleOk m) →
      ∀ m ∈ claude_goDivs msgs tIdx ds, roleOk m := by
  induction ds with
  | nil => intro msgs tIdx h; simpa [claude_goDivs] using h
  | cons d rest ih =>
    intro msgs tIdx h
    rw [claude_goDivs]
    split
    · exact ih msgs tIdx h
    · split
      · exact ih msgs tIdx h
      · split
        · exact ih msgs tIdx h
        · refine ih _ _ (roleOk_append msgs _ h ?_)
          rcases claude_nextRole_cases msgs with hr | hr
          · left; simpa [claude_mkMsg] using hr
          · right; left; simpa [claude_mkMsg] using hr

theorem claude_fallbackGo_roleOk (es : List FElem) :
    ∀ msgs tIdx role, role = "user" ∨ role = "assistant" → (∀ m ∈ msgs, roleOk m) →
      ∀ m ∈ claude_fallbackGo msgs tIdx role es, roleOk m := by
  induction es with
  | nil => intro msgs tIdx role _ h; simpa [claude_fallbackGo] using h
  | cons e rest ih =>
    intro msgs tIdx role hrole h
    rw [claude_fallbackGo]
    have h2 : ∀ m ∈ msgs ++ [claude_fallbackMsg msgs tIdx role e], roleOk m := by
      refine roleOk_append msgs _ h ?_
      rcases hrole with hr | hr
      · left; simpa [claude_fallbackMsg] using hr
      · right; left; simpa [claude_fallbackMsg] using hr
    split
    · exact ih msgs tIdx role hrole h
    · split
      · exact ih msgs tIdx role hrole h
      · split
        · exact h2
        · split
          · exact ih _ _ _ (Or.inr rfl) h2
          · exact ih _ _ _ (Or.inl rfl) h2

theorem gce_processElems_roleOk (es : List GCEElem) :
    ∀ idx, ∀ m ∈ gce_processElems idx es, roleOk m := by
  induction es with
  | nil => intro idx m hm; simp [gce_processElems] at hm
  | cons e rest ih =>
    intro idx m hm
    rw [gce_processElems] at hm
    split at hm
    · exact ih (idx + 1) m hm
    · rcases List.mem_cons.mp hm with hm | hm
      · rcases gce_role_cases e.classes with hr | hr
        · left; simp [hm, hr]
        · right; left; simp [hm, hr]
      · exact ih (idx + 1) m hm

theorem gce_mdGo_roleOk (bs : List String) :
    ∀ n, ∀ m ∈ gce_mdGo n bs, roleOk m := by
  induction bs with
  | nil => intro n m hm; simp [gce_mdGo] at hm
  | cons b rest ih =>
    intro n m hm
    rw [gce_mdGo] at hm
    split at hm
    · exact ih n m hm
    · rcases List.mem_cons.mp hm with hm | hm
      · right; right; simp [hm]
      · exact ih (n + 1) m hm

theorem patchright_goElems_roleOk (es : List PElem) :
    ∀ msgs, (∀ m ∈ msgs, roleOk m) → ∀ m ∈ patchright_goElems msgs es, roleOk m := by
  induction es with
  | nil => intro msgs h; simpa [patchright_goElems] using h
  | cons e rest ih =>
    intro msgs h
    rw [patchright_goElems]
    split
    · exact ih _ (roleOk_append msgs _ h (Or.inr (Or.inr rfl)))
    · exact ih msgs h

theorem gce_cascade_spec (ss : List String) (q : String → List GCEElem)
    (h : gce_cascade q ss ≠ []) :
    ∃ pre s suf, ss = pre ++ s :: suf ∧ (∀ s2 ∈ pre, q s2 = []) ∧
      q s ≠ [] ∧ gce_cascade q ss = q s := by
  induction ss with
  | nil => simp [gce_cascade] at h
  | cons s rest ih =>
    by_cases hs : q s = []
    · have htail : gce_cascade q rest ≠ [] := by
        simpa [gce_cascade, hs] using h
      rcases ih htail with ⟨pre, s1, suf, heq, hpre, hne, hval⟩
      refine ⟨s :: pre, s1, suf, by simp [heq], ?_, hne, ?_⟩
      · intro s2 hs2
        rcases List.mem_cons.mp hs2 with h2 | h2
        · rw [h2]; exact hs
        · exact hpre s2 h2
      · simpa [gce_cascade, hs] using hval
    · exact ⟨[], s, rest, rfl, by simp, hs, by simp [gce_cascade, hs]⟩

theorem simple_buildFrom_of_query_nil (q : String → List SElem) (s : String)
    (h : simple_query q s = []) : simple_buildFrom q s = [] := by
  simp [simple_buildFrom, h, simple_buildGo]

theorem simple_cascade_spec (ss : List String) (q : String → List SElem)
    (h : simple_cascade q ss ≠ []) :
    ∃ pre s suf, ss = pre ++ s :: suf ∧ (∀ s2 ∈ pre, simple_buildFrom q s2 = []) ∧
      simple_buildFrom q s ≠ [] ∧ simple_cascade q ss = simple_buildFrom q s := by
  induction ss with
  | nil => simp [simple_cascade] at h
  | cons s rest ih =>
    by_cases hq : simple_query q s = []
    · have hb := simple_buildFrom_of_query_nil q s hq
      have htail : simple_cascade q rest ≠ [] := by
        simpa [simple_cascade, hq] using h
      rcases ih htail with ⟨pre, s1, suf, heq, hpre, hne, hval⟩
      refine ⟨s :: pre, s1, suf, by simp [heq], ?_, hne, ?_⟩
      · intro s2 hs2
        rcases List.mem_cons.mp hs2 with h2 | h2
        · rw [h2]; exact hb
        · exact hpre s2 h2
      · simpa [simple_cascade, hq] using hval
    · by_cases hb : simple_buildFrom q s = []
      · have htail : simple_cascade q rest ≠ [] := by
          simpa [simple_cascade, hq, hb] using h
        rcases ih htail with ⟨pre, s1, suf, heq, hpre, hne, hval⟩
        refine ⟨s :: pre, s1, suf, by simp [heq], ?_, hne, ?_⟩
        · intro s2 hs2
          rcases List.mem_cons.mp hs2 with h2 | h2
          · rw [h2]; exact hb
          · exact hpre s2 h2
        · simpa [simple_cascade, hq, hb] using hval
      · exact ⟨[], s, rest, rfl, by simp, hb, by simp [simple_cascade, hq, hb]⟩

theorem claude_fallbackGo_length_le (es : List FElem) :
    ∀ msgs tIdx role, msgs.length < 50 →
      (claude_fallbackGo msgs tIdx role es).length ≤ 50 := by
  induction es with
  | nil => intro msgs tIdx role h; simpa [claude_fallbackGo] using Nat.le_of_lt h
  | cons e rest ih =>
    intro msgs tIdx role h
    rw [claude_fallbackGo]
    split
    · exact ih msgs tIdx role h
    · split
      · exact ih msgs tIdx role h
      · by_cases h50 : 50 ≤ (msgs ++ [claude_fallbackMsg msgs tIdx role e]).length
        · rw [if_pos h50]
          simp only [List.length_append, List.length_cons, List.length_nil]
          omega
        · rw [if_neg h50]
          have hlt : (msgs ++ [claude_fallbackMsg msgs tIdx role e]).length < 50 :=
            Nat.lt_of_not_le h50
          by_cases hrole : role = "user"
          · rw [if_pos hrole]; exact ih _ _ _ hlt
          · rw [if_neg hrole]; exact ih _ _ _ hlt

/- ------------------------------------------------------------------ -/
/- Claim theorems                                                      -/
/- ------------------------------------------------------------------ -/

/-- Claim C1: for every extraction result record written by any of the four
scripts, the `message_count` field equals the length of the `messages` array
in that same record. -/
theorem message_count_eq_length :
    (∀ url ts st doc, (gemini_chatData url ts st doc).message_count
        = (gemini_chatData url ts st doc).messages.length)
    ∧ (∀ url ts st doc, (claude_chatData url ts st doc).message_count
        = (claude_chatData url ts st doc).messages.length)
    ∧ (∀ url ts doc, (gce_chatData url ts doc).message_count
        = (gce_chatData url ts doc).messages.length)
    ∧ (∀ url ts st doc, (patchright_chatData url ts st doc).message_count
        = (patchright_chatData url ts st doc).messages.length) :=
  ⟨fun _ _ _ _ => rfl, fun _ _ _ _ => rfl, fun _ _ _ => rfl, fun _ _ _ _ => rfl⟩

/-- Claim C2 (amended): in extract_gemini.py, extract_claude.py and
gemini_patchright.py every message's `index` equals its zero-based position
in the `messages` array (hence the indexes are exactly `0, 1, 2, ...`).  In
gemini_chat_extractor.py the element loop stores the enumerate counter over
`message_elements`, which is strictly increasing but skips a value for every
selected element with empty stripped text, so it need not equal the array
position (and the markdown supplement can then repeat an index). -/
theorem index_matches_position_amended :
    (∀ turns, (gemini_messagesOf turns).map Message.index
        = List.range (gemini_messagesOf turns).length)
    ∧ (∀ doc, (claude_messagesOf doc).map Message.index
        = List.range (claude_messagesOf doc).length)
    ∧ (∀ doc, (patchright_messagesOf doc).map Message.index
        = List.range (patchright_messagesOf doc).length)
    ∧ (∀ idx es, ((gce_processElems idx es).map Message.index).Pairwise (· < ·)) := by
  refine ⟨?_, ?_, ?_, ?_⟩
  · intro turns
    exact gemini_goTurns_aligned turns 0 [] (by simp)
  · intro doc
    by_cases hp : claude_primaryMessages doc = []
    · simpa [claude_messagesOf, hp] using
        claude_fallbackGo_aligned doc.fallbackElems [] 0 "user" (by simp)
    · have hmsg : claude_messagesOf doc = claude_primaryMessages doc := by
        simp [claude_messagesOf, hp]
      rw [hmsg]
      exact claude_goDivs_aligned doc.nestedDivs [] 0 (by simp)
  · intro doc
    cases hb : doc.body with
    | none => simp [patchright_messagesOf, hb]
    | some b =>
      obtain ⟨txt, els⟩ := b
      simpa [patchright_messagesOf, hb] using patchright_goElems_aligned els [] (by simp)
  · intro idx es
    exact gce_processElems_pairwise es idx

/-- Claim C2 counterexample: on a page where the second selector of
gemini_chat_extractor.py matches an empty-text element followed by a text
element, and the crawler's markdown supplement then fires, the stored
indexes are `[1, 1, 2]` — neither equal to the positions `[0, 1, 2]` nor
strictly increasing. -/
theorem index_matches_position_counterexample :
    (gce_messagesOf exGceDoc).map Message.index = [1, 1, 2]
    ∧ ¬ ((gce_messagesOf exGceDoc).map Message.index
        = List.range (gce_messagesOf exGceDoc).length)
    ∧ ¬ ((gce_messagesOf exGceDoc).map Message.index).Pairwise (· < ·) :=
  ⟨by decide, by decide, by decide⟩

/-- Claim C3 (amended): navigation failures and exceptions raised while
loading or parsing are caught at the per-URL level and become the error
record `{"error": message, "url": url}` (in gemini_patchright.py the
exception escapes `extract_gemini_chat` and is caught by `main`'s per-URL
handler), and the URL loop yields one result per URL regardless.  A non-200
HTTP response by itself is NOT converted into an error record: the scripts
only record it in the `status_code` field of a normal result record. -/
theorem per_url_error_handling_amended :
    (∀ url ts m, claude_extract_chat url ts (.navError m) = .err m url)
    ∧ (∀ url ts st m, claude_extract_chat url ts (.parseError st m) = .err m url)
    ∧ (∀ url ts st doc, claude_extract_chat url ts (.pageOk st doc)
          = .ok (claude_chatData url ts st doc)
        ∧ (claude_chatData url ts st doc).status_code = some st)
    ∧ (∀ url ts m, gemini_extract_chat url ts (.navError m) = .err m url)
    ∧ (∀ url ts st m, gemini_extract_chat url ts (.parseError st m) = .err m url)
    ∧ (∀ url ts st doc, gemini_extract_chat url ts (.pageOk st doc)
          = .ok (gemini_chatData url ts st doc)
        ∧ (gemini_chatData url ts st doc).status_code = some st)
    ∧ (∀ url ts m, patchright_mainStep url ts (.raised m) = .err m url)
    ∧ (∀ url ts m, gce_extract_chat url ts (.crawlFailed m) = .err m url)
    ∧ (∀ ts inputs, (claude_run ts inputs).length = inputs.length)
    ∧ (∀ ts inputs, (patchright_run ts inputs).length = inputs.length) := by
  refine ⟨fun _ _ _ => rfl, fun _ _ _ _ => rfl, fun _ _ _ _ => ⟨rfl, rfl⟩,
    fun _ _ _ => rfl, fun _ _ _ _ => rfl, fun _ _ _ _ => ⟨rfl, rfl⟩,
    fun _ _ _ => rfl, fun _ _ _ => rfl, ?_, ?_⟩
  · intro ts inputs
    induction inputs with
    | nil => rfl
    | cons p rest ih => obtain ⟨u, e⟩ := p; simp [claude_run, ih]
  · intro ts inputs
    induction inputs with
    | nil => rfl
    | cons p rest ih => obtain ⟨u, e⟩ := p; simp [patchright_run, ih]

/-- Claim C3 counterexample: a page that loads with HTTP status 403 and
parses without raising produces a normal result record carrying
`status_code = 403` — no error record is written for the non-200 response. -/
theorem per_url_error_handling_counterexample :
    (claude_extract_chat "https://claude.ai/share/x" "t0"
        (.pageOk 403 exEmptyClaudeDoc)).hasError = false
    ∧ (claude_chatData "https://claude.ai/share/x" "t0" 403 exEmptyClaudeDoc).status_code
        = some 403
    ∧ (403 : Nat) ≠ 200 :=
  ⟨rfl, rfl, by decide⟩

/-- Claim C4 (amended): the run summaries of extract_gemini.py and
extract_claude.py carry `total_urls` equal to the number of URLs processed,
`successful` equal to the number of results without an `error` key and
`failed` equal to the number with one, and appending one error result (e.g.
from a navigation failure) increments the `failed` count by exactly one.
The summaries of gemini_chat_extractor.py and gemini_patchright.py carry
only `timestamp`, `total_urls` and `results` — they have no success/failure
counters. -/
theorem run_summary_counters_amended :
    (∀ ts urls results,
        (claude_summaryJson ts urls results).lookup "total_urls"
            = some (.num urls.length)
        ∧ (claude_summaryJson ts urls results).lookup "successful"
            = some (.num (results.countP (fun r => !r.hasError)))
        ∧ (claude_summaryJson ts urls results).lookup "failed"
            = some (.num (results.countP (fun r => r.hasError))))
    ∧ (∀ ts urls results,
        (gemini_summaryJson ts urls results).lookup "total_urls"
            = some (.num urls.length)
        ∧ (gemini_summaryJson ts urls results).lookup "successful"
            = some (.num (results.countP (fun r => !r.hasError)))
        ∧ (gemini_summaryJson ts urls results).lookup "failed"
            = some (.num (results.countP (fun r => r.hasError))))
    ∧ (∀ results m u,
        ((results ++ [.err m u]).countP (fun r => UrlResult.hasError r))
          = results.countP (fun r => UrlResult.hasError r) + 1)
    ∧ (∀ ts urls results, (gce_summaryJson ts urls results).lookup "total_urls"
          = some (.num urls.length))
    ∧ (∀ ts urls results, (patchright_summaryJson ts urls results).lookup "total_urls"
          = some (.num urls.length)) := by
  refine ⟨fun _ _ _ => ⟨rfl, rfl, rfl⟩, fun _ _ _ => ⟨rfl, rfl, rfl⟩, ?_,
    fun _ _ _ => rfl, fun _ _ _ => rfl⟩
  intro results m u
  simp [List.countP_append, List.countP_cons, UrlResult.hasError]

/-- Claim C4 counterexample: gemini_chat_extractor.py's run summary has no
`successful` and no `failed` key at all. -/
theorem run_summary_counters_counterexample :
    (gce_summaryJson "t0" ["https://g.co/gemini/share/c9cba1e9858a"] []).lookup
        "successful" = none
    ∧ (gce_summaryJson "t0" ["https://g.co/gemini/share/c9cba1e9858a"] []).lookup
        "failed" = none :=
  ⟨rfl, rfl⟩

/-- Claim C5: when the extraction heuristics find zero messages, each script
still produces a normal result record with an empty `messages` array and
`message_count = 0` instead of failing or writing an error record. -/
theorem zero_messages_valid_record :
    (∀ url ts st (doc : GeminiDoc), gemini_messagesOf doc.turns = [] →
        gemini_extract_chat url ts (.pageOk st doc) = .ok (gemini_chatData url ts st doc)
        ∧ (gemini_chatData url ts st doc).messages = []
        ∧ (gemini_chatData url ts st doc).message_count = 0)
    ∧ (∀ url ts st (doc : ClaudeDoc), claude_messagesOf doc = [] →
        claude_extract_chat url ts (.pageOk st doc) = .ok (claude_chatData url ts st doc)
        ∧ (claude_chatData url ts st doc).messages = []
        ∧ (claude_chatData url ts st doc).message_count = 0)
    ∧ (∀ url ts st (doc : PDoc), patchright_messagesOf doc = [] →
        patchright_mainStep url ts (.pageOk st doc) = .ok (patchright_chatData url ts st doc)
        ∧ (patchright_chatData url ts st doc).messages = []
        ∧ (patchright_chatData url ts st doc).message_count = 0) := by
  refine ⟨?_, ?_, ?_⟩
  · intro url ts st doc h
    exact ⟨rfl, by simp [gemini_chatData, h], by simp [gemini_chatData, h]⟩
  · intro url ts st doc h
    exact ⟨rfl, by simp [claude_chatData, h], by simp [claude_chatData, h]⟩
  · intro url ts st doc h
    exact ⟨rfl, by simp [patchright_chatData, h], by simp [patchright_chatData, h]⟩

/-- Claim C5 witness: concrete empty pages for the three scripts. -/
theorem zero_messages_valid_record_witness :
    ((gemini_chatData "u" "t" 200 exEmptyGeminiDoc).messages = []
      ∧ (gemini_chatData "u" "t" 200 exEmptyGeminiDoc).message_count = 0)
    ∧ ((claude_chatData "u" "t" 200 exEmptyClaudeDoc).messages = []
      ∧ (claude_chatData "u" "t" 200 exEmptyClaudeDoc).message_count = 0)
    ∧ ((patchright_chatData "u" "t" (some 200) exEmptyPDoc).messages = []
      ∧ (patchright_chatData "u" "t" (some 200) exEmptyPDoc).message_count = 0) :=
  ⟨⟨(zero_messages_valid_record.1 "u" "t" 200 exEmptyGeminiDoc rfl).2.1,
    (zero_messages_valid_record.1 "u" "t" 200 exEmptyGeminiDoc rfl).2.2⟩,
   ⟨(zero_messages_valid_record.2.1 "u" "t" 200 exEmptyClaudeDoc rfl).2.1,
    (zero_messages_valid_record.2.1 "u" "t" 200 exEmptyClaudeDoc rfl).2.2⟩,
   ⟨(zero_messages_valid_record.2.2 "u" "t" (some 200) exEmptyPDoc rfl).2.1,
    (zero_messages_valid_record.2.2 "u" "t" (some 200) exEmptyPDoc rfl).2.2⟩⟩

/-- Claim C6: every message record produced by any of the four scripts has
`role` equal to `"user"`, `"assistant"` or `"unknown"`. -/
theorem role_in_domain :
    (∀ turns, ∀ m ∈ gemini_messagesOf turns,
        m.role = "user" ∨ m.role = "assistant" ∨ m.role = "unknown")
    ∧ (∀ doc, ∀ m ∈ claude_messagesOf doc,
        m.role = "user" ∨ m.role = "assistant" ∨ m.role = "unknown")
    ∧ (∀ doc, ∀ m ∈ gce_messagesOf doc,
        m.role = "user" ∨ m.role = "assistant" ∨ m.role = "unknown")
    ∧ (∀ doc, ∀ m ∈ patchright_messagesOf doc,
        m.role = "user" ∨ m.role = "assistant" ∨ m.role = "unknown") := by
  refine ⟨?_, ?_, ?_, ?_⟩
  · intro turns m hm
    exact gemini_goTurns_roleOk turns 0 [] (by simp) m hm
  · intro doc m hm
    by_cases hp : claude_primaryMessages doc = []
    · simp only [claude_messagesOf, hp, if_pos] at hm
      exact claude_fallbackGo_roleOk doc.fallbackElems [] 0 "user" (Or.inl rfl) (by simp) m hm
    · have hmsg : claude_messagesOf doc = claude_primaryMessages doc := by
        simp [claude_messagesOf, hp]
      rw [hmsg] at hm
      exact claude_goDivs_roleOk doc.nestedDivs [] 0 (by simp) m hm
  · intro doc m hm
    by_cases h5 : (gce_processElems 0 (gce_messageElements doc)).length < 5
    · simp only [gce_messagesOf, h5, if_pos] at hm
      rcases List.mem_append.mp hm with hm | hm
      · exact gce_processElems_roleOk (gce_messageElements doc) 0 m hm
      · exact gce_mdGo_roleOk (gce_mdBlocks doc.markdown) _ m hm
    · simp only [gce_messagesOf, h5, if_neg] at hm
      exact gce_processElems_roleOk (gce_messageElements doc) 0 m hm
  · intro doc m hm
    cases hb : doc.body with
    | none => simp [patchright_messagesOf, hb] at hm
    | some b =>
      obtain ⟨txt, els⟩ := b
      rw [patchright_messagesOf, hb] at hm
      exact patchright_goElems_roleOk els [] (by simp) m hm

/-- Claim C6 witness: the message extract_gemini.py builds from a page with
one user query has role `"user"`. -/
theorem role_in_domain_witness :
    exRoleMsg.role = "user" ∨ exRoleMsg.role = "assistant"
      ∨ exRoleMsg.role = "unknown" :=
  role_in_domain.1 exRoleTurns exRoleMsg (by decide)

/-- Claim C7 (amended): extract_claude.py applies its seen-text check in both
the primary and the fallback path, so no two of its message records have
identical `content`; the archived simple extractor's text-block fallback does
the same.  The other extraction paths (extract_gemini.py,
gemini_chat_extractor.py, gemini_patchright.py, and the archived script's
selector path) append without any duplicate check and can emit identical
contents. -/
theorem seen_text_dedup_amended :
    (∀ doc, ((claude_messagesOf doc).map Message.content).Nodup)
    ∧ (∀ es, ((simple_fallbackGo [] es).map Message.content).Nodup) := by
  refine ⟨?_, ?_⟩
  · intro doc
    by_cases hp : claude_primaryMessages doc = []
    · simpa [claude_messagesOf, hp] using
        claude_fallbackGo_nodup doc.fallbackElems [] 0 "user" (by simp)
    · have hmsg : claude_messagesOf doc = claude_primaryMessages doc := by
        simp [claude_messagesOf, hp]
      rw [hmsg]
      exact claude_goDivs_nodup doc.nestedDivs [] 0 (by simp)
  · intro es
    exact simple_fallbackGo_nodup es [] (by simp)

/-- Claim C7 counterexample: extract_gemini.py applies no duplicate check —
two turns with the same user query yield two messages with identical
content. -/
theorem seen_text_dedup_counterexample :
    (gemini_messagesOf exDupTurns).map Message.content = ["hi", "hi"]
    ∧ ¬ ((gemini_messagesOf exDupTurns).map Message.content).Nodup :=
  ⟨by decide, by decide⟩

/-- Claim C8 (amended): both cascades try their selector lists in order, but
they stop on different conditions.  gemini_chat_extractor.py stops at the
first selector that matches any elements and uses exactly those matches —
all earlier selectors matched nothing.  The archived simple extractor stops
at the first selector whose matches produce at least one message (text
longer than 10 characters): all earlier selectors produced no message, but
they may well have matched elements, so the elements used need not come from
the earliest selector that yielded matches. -/
theorem selector_cascade_amended :
    (∀ q : String → List GCEElem, gce_cascade q gce_selectors ≠ [] →
        ∃ pre s suf, gce_selectors = pre ++ s :: suf ∧ (∀ s2 ∈ pre, q s2 = []) ∧
          q s ≠ [] ∧ gce_cascade q gce_selectors = q s)
    ∧ (∀ q : String → List SElem, simple_cascade q simple_selectors ≠ [] →
        ∃ pre s suf, simple_selectors = pre ++ s :: suf ∧
          (∀ s2 ∈ pre, simple_buildFrom q s2 = []) ∧
          simple_buildFrom q s ≠ [] ∧
          simple_cascade q simple_selectors = simple_buildFrom q s) :=
  ⟨fun q => gce_cascade_spec gce_selectors q,
   fun q => simple_cascade_spec simple_selectors q⟩

/-- Claim C8 witness: concrete queries on which both cascades stop at a
selector. -/
theorem selector_cascade_witness :
    (∃ pre s suf, gce_selectors = pre ++ s :: suf ∧ (∀ s2 ∈ pre, exGceQ s2 = []) ∧
        exGceQ s ≠ [] ∧ gce_cascade exGceQ gce_selectors = exGceQ s)
    ∧ (∃ pre s suf, simple_selectors = pre ++ s :: suf ∧
        (∀ s2 ∈ pre, simple_buildFrom exSimpleQ s2 = []) ∧
        simple_buildFrom exSimpleQ s ≠ [] ∧
        simple_cascade exSimpleQ simple_selectors = simple_buildFrom exSimpleQ s) :=
  ⟨selector_cascade_amended.1 exGceQ (by decide),
   selector_cascade_amended.2 exSimpleQ (by decide)⟩

/-- Claim C8 counterexample: for the archived simple extractor, the first
selector entry matches an element (of text length 10 or less), yet the
messages used come from the second selector entry — the elements used are
not those matched by the earliest selector that yielded results. -/
theorem selector_cascade_counterexample :
    simple_selectors.head? = some "message-content"
    ∧ simple_query exSimpleQ "message-content" ≠ []
    ∧ (simple_cascade exSimpleQ simple_selectors).map Message.selector
        = [some "model-response"]
    ∧ ("model-response" : String) ≠ "message-content" :=
  ⟨rfl, by decide, by decide, by decide⟩

/-- Claim C9 (amended): with no CLI arguments every script processes its
hardcoded default list, and with arguments every script processes exactly the
given URLs — except extract_claude.py invoked with exactly two arguments,
which enters API mode (`len(sys.argv) == 3`) and processes only the first
argument as a URL (the second names the output file). -/
theorem cli_url_selection_amended :
    (claude_processedUrls [] = claude_defaultUrls)
    ∧ (∀ u, claude_processedUrls [u] = [u])
    ∧ (∀ u v, claude_processedUrls [u, v] = [u])
    ∧ (∀ a b c rest, claude_processedUrls (a :: b :: c :: rest) = a :: b :: c :: rest)
    ∧ (gemini_processedUrls [] = gemini_defaultUrls)
    ∧ (∀ u rest, gemini_processedUrls (u :: rest) = u :: rest)
    ∧ (gce_processedUrls [] = gce_defaultUrls)
    ∧ (∀ u rest, gce_processedUrls (u :: rest) = u :: rest)
    ∧ (patchright_processedUrls [] = patchright_defaultUrls)
    ∧ (∀ u rest, patchright_processedUrls (u :: rest) = u :: rest) := by
  refine ⟨rfl, fun u => rfl, fun u v => rfl, ?_, rfl, fun u rest => ?_, rfl,
    fun u rest => ?_, rfl, fun u rest => ?_⟩
  · intro a b c rest
    have hlen : (a :: b :: c :: rest).length = rest.length + 3 := by simp
    simp only [claude_processedUrls, hlen]
    rw [if_neg (by omega), if_pos (by omega)]
  · simp [gemini_processedUrls]
  · simp [gce_processedUrls]
  · simp [patchright_processedUrls]

/-- Claim C9 counterexample: extract_claude.py invoked with exactly the two
URL arguments `u1 u2` processes only `["u1"]`, not `["u1", "u2"]`. -/
theorem cli_url_selection_counterexample :
    claude_processedUrls ["https://claude.ai/share/a", "https://claude.ai/share/b"]
        = ["https://claude.ai/share/a"]
    ∧ claude_processedUrls ["https://claude.ai/share/a", "https://claude.ai/share/b"]
        ≠ ["https://claude.ai/share/a", "https://claude.ai/share/b"] :=
  ⟨rfl, by decide⟩

/-- Claim C10: when extract_claude.py's primary strategies find zero
messages, the fallback path caps the resulting messages array at 50
entries. -/
theorem fallback_message_cap (doc : ClaudeDoc)
    (h : claude_primaryMessages doc = []) :
    (claude_messagesOf doc).length ≤ 50 := by
  have hcap := claude_fallbackGo_length_le doc.fallbackElems [] 0 "user" (by simp)
  simpa [claude_messagesOf, h] using hcap

/-- Claim C10 witness: the empty page enters the fallback path and yields at
most 50 messages. -/
theorem fallback_message_cap_witness :
    claude_primaryMessages exEmptyClaudeDoc = []
    ∧ (claude_messagesOf exEmptyClaudeDoc).length ≤ 50 :=
  ⟨rfl, fallback_message_cap exEmptyClaudeDoc rfl⟩
